import Mathlib

/-!
Shallow embedding of the macro-economic data pipeline
(`src/data_cleaner.py` and `src/feature_engineering.py`).

Conventions of the embedding:
* a pandas cell is a `Cell` (string, rational number, timestamp, or NaN);
* a DataFrame is a list of column labels plus a list of rows of cells;
* a missing numeric value (NaN) is `none : Option Rat`;
* fallible frame operations (column lookup) return `Except CleanErr`.
-/

/-- A calendar date (year, month, day) as produced by the date parsers. -/
structure Date where
  year : Nat
  month : Nat
  day : Nat
deriving DecidableEq, Repr

/-- Strict lexicographic order on dates, (year, month, day). -/
def dateLT (a b : Date) : Prop :=
  a.year < b.year ∨ (a.year = b.year ∧ (a.month < b.month ∨
    (a.month = b.month ∧ a.day < b.day)))

instance : DecidableRel dateLT := fun a b => by
  unfold dateLT; infer_instance

/-- Lower-case a string character-wise (Python `str.lower`, ASCII letters). -/
def lowerStr (s : String) : String :=
  String.mk (s.toList.map Char.toLower)

/-- Strip leading and trailing whitespace from a char list. -/
def trimCh (l : List Char) : List Char :=
  ((l.dropWhile Char.isWhitespace).reverse.dropWhile Char.isWhitespace).reverse

/-- Python `str.strip`. -/
def trimStr (s : String) : String :=
  String.mk (trimCh s.toList)

/-- Split a char list on a separator character (keeping empty pieces). -/
def splitChAux (sep : Char) : List Char → List Char → List (List Char)
  | acc, [] => [acc.reverse]
  | acc, c :: cs =>
    if c == sep then acc.reverse :: splitChAux sep [] cs
    else splitChAux sep (c :: acc) cs

/-- Python `str.split(sep)` for a one-character separator. -/
def splitStr (sep : Char) (s : String) : List String :=
  (splitChAux sep [] s.toList).map String.mk

/-- The natural number denoted by a list of decimal digits. -/
def natOfDigits (l : List Char) : Nat :=
  l.foldl (fun n c => n * 10 + (c.toNat - 48)) 0

/-- Month abbreviations recognised by the `%b` directive, lower-cased. -/
def monthAbbrevs : List String :=
  ["jan", "feb", "mar", "apr", "may", "jun", "jul", "aug", "sep", "oct", "nov", "dec"]

/-- Parse a `%b` month abbreviation (case-insensitive), returning 1..12. -/
def parseMonthAbbrev (s : String) : Option Nat :=
  match monthAbbrevs.findIdx? (fun m => m == lowerStr s) with
  | some i => some (i + 1)
  | none => none

/-- Whether a char list consists only of ASCII digits (and is nonempty). -/
def allDigits (l : List Char) : Bool :=
  !l.isEmpty && l.all Char.isDigit

/-- Parse a string of exactly `n` digits as a natural number. -/
def parseDigits (n : Nat) (s : String) : Option Nat :=
  if s.toList.length = n && allDigits s.toList then some (natOfDigits s.toList) else none

/-- Parse a 1- or 2-digit numeric field (as `%m` and `%d` accept). -/
def parseDigits12 (s : String) : Option Nat :=
  if (s.toList.length = 1 || s.toList.length = 2) && allDigits s.toList then
    some (natOfDigits s.toList)
  else none

/-- Two-digit year pivot used by `%y`: 00-68 maps to 2000-2068, 69-99 to 1969-1999. -/
def expandYY (yy : Nat) : Nat :=
  if yy ≤ 68 then 2000 + yy else 1900 + yy

/-- Days in a month, with Gregorian leap years (strptime validates day ranges). -/
def daysInMonth (y m : Nat) : Nat :=
  if m = 2 then
    if y % 4 = 0 && (y % 100 ≠ 0 || y % 400 = 0) then 29 else 28
  else if m = 4 || m = 6 || m = 9 || m = 11 then 30
  else 31

/-- The four explicit format patterns tried by `_try_parse_dates`. -/
inductive Fmt where
  | bY2   -- "%b-%y"  e.g. "Jul-13"
  | bY4   -- "%b-%Y"  e.g. "Jul-2013"
  | Ymd   -- "%Y-%m-%d"
  | Ym    -- "%Y-%m"
deriving DecidableEq, Repr

/-- Parse one string under one strptime-style format (exact match, as
`pd.to_datetime(..., format=fmt)` requires). -/
def parseFmt (f : Fmt) (s : String) : Option Date :=
  let parts := splitStr (Char.ofNat 45) s
  match f with
  | .bY2 =>
    match parts with
    | [p1, p2] =>
      match parseMonthAbbrev p1, parseDigits 2 p2 with
      | some m, some yy => some ⟨expandYY yy, m, 1⟩
      | _, _ => none
    | _ => none
  | .bY4 =>
    match parts with
    | [p1, p2] =>
      match parseMonthAbbrev p1, parseDigits 4 p2 with
      | some m, some y => some ⟨y, m, 1⟩
      | _, _ => none
    | _ => none
  | .Ymd =>
    match parts with
    | [p1, p2, p3] =>
      match parseDigits 4 p1, parseDigits12 p2, parseDigits12 p3 with
      | some y, some m, some d =>
        if 1 ≤ m && m ≤ 12 && 1 ≤ d && d ≤ daysInMonth y m then some ⟨y, m, d⟩ else none
      | _, _, _ => none
    | _ => none
  | .Ym =>
    match parts with
    | [p1, p2] =>
      match parseDigits 4 p1, parseDigits12 p2 with
      | some y, some m => if 1 ≤ m && m ≤ 12 then some ⟨y, m, 1⟩ else none
      | _, _ => none
    | _ => none

/-- The format list of `_try_parse_dates`, in source order:
`["%b-%y", "%b-%Y", "%Y-%m-%d", "%Y-%m"]`. -/
def formats : List Fmt := [.bY2, .bY4, .Ymd, .Ym]

/-- Model of the general-purpose fallback parser (`pd.to_datetime` without a
format, i.e. dateutil): best-effort, returns `none` on non-date strings.
Exact successes of dateutil are not relied on by any theorem below; what
matters is that it is a per-value fallback. -/
def generalParse (s : String) : Option Date :=
  (parseFmt .Ymd s).orElse fun _ =>
    (parseFmt .Ym s).orElse fun _ =>
      (parseFmt .bY2 s).orElse fun _ => parseFmt .bY4 s

/-- Whether a format parses at least one value of the column
(`parsed.notna().sum() > 0` in the source). -/
def anyParsed (f : Fmt) (col : List String) : Bool :=
  (col.map (parseFmt f)).any Option.isSome

/-- The format-trying loop of `_try_parse_dates`: try each format over the
whole column; return the first column result with at least one success. -/
def tryFormats : List Fmt → List String → List (Option Date)
  | [], col => col.map generalParse
  | f :: fs, col =>
    let parsed := col.map (parseFmt f)
    if parsed.any Option.isSome then parsed else tryFormats fs col

/-- `_try_parse_dates` from `src/data_cleaner.py`. -/
def tryParseDates (col : List String) : List (Option Date) :=
  tryFormats formats col

/-- Substring test on char lists: prefix check. -/
def listIsPrefix : List Char → List Char → Bool
  | [], _ => true
  | _ :: _, [] => false
  | a :: as, b :: bs => a == b && listIsPrefix as bs

/-- Substring containment on char lists (the Python `in` operator on strings). -/
def listIsSubstr (n : List Char) : List Char → Bool
  | [] => listIsPrefix n []
  | l@(_ :: t) => listIsPrefix n l || listIsSubstr n t

/-- `needle in hay` for strings. -/
def isSubstr (needle hay : String) : Bool :=
  listIsSubstr needle.toList hay.toList

/-- A pandas cell: a string, a number, a timestamp, or NaN. -/
inductive Cell where
  | str (s : String)
  | num (q : Rat)
  | date (d : Date)
  | na
deriving DecidableEq, Repr

/-- Zero-padded two-digit rendering used for timestamp display. -/
def pad2 (n : Nat) : String :=
  if n < 10 then "0" ++ toString n else toString n

/-- `astype(str)` on one cell. Numeric rendering is simplified (no float point
formatting); no theorem below depends on the rendering of numbers. -/
def cellToStr : Cell → String
  | .str s => s
  | .num q => toString q
  | .date d => toString d.year ++ "-" ++ pad2 d.month ++ "-" ++ pad2 d.day ++ " 00:00:00"
  | .na => "nan"

/-- Rational negation in a definitionally reducible form. -/
def qneg (a : Rat) : Rat := mkRat (-a.num) a.den

/-- Rational addition in a definitionally reducible form (the standard
`Rat.add` is irreducible; `qadd_eq_add` below identifies the two). -/
def qadd (a b : Rat) : Rat := mkRat (a.num * b.den + b.num * a.den) (a.den * b.den)

/-- Rational subtraction in a definitionally reducible form. -/
def qsub (a b : Rat) : Rat := mkRat (a.num * b.den - b.num * a.den) (a.den * b.den)

/-- Rational multiplication in a definitionally reducible form. -/
def qmul (a b : Rat) : Rat := mkRat (a.num * b.num) (a.den * b.den)

/-- Rational inverse in a definitionally reducible form. -/
def qinv (a : Rat) : Rat := Rat.divInt a.den a.num

/-- Rational division in a definitionally reducible form. -/
def qdiv (a b : Rat) : Rat := qmul a (qinv b)

/-- Sum of a list of rationals. -/
def qsum (l : List Rat) : Rat := l.foldr qadd 0

/-- Parse a decimal numeral string as a rational (`pd.to_numeric` on a string). -/
def parseRatStr (s : String) : Option Rat :=
  let t := trimCh s.toList
  let signed : Rat × List Char :=
    match t with
    | c :: rest => if c == Char.ofNat 45 then (qneg 1, rest) else (1, t)
    | [] => (1, t)
  match splitChAux (Char.ofNat 46) [] signed.2 with
  | [ip] => if allDigits ip then some (qmul signed.1 (mkRat (natOfDigits ip) 1)) else none
  | [ip, fp] =>
      if allDigits ip && allDigits fp then
        some (qmul signed.1 (qadd (mkRat (natOfDigits ip) 1)
          (qdiv (mkRat (natOfDigits fp) 1) (mkRat ((10 : Nat) ^ fp.length) 1))))
      else none
  | _ => none

/-- `pd.to_numeric(cell, errors="coerce")`. Timestamps in an object column are
left uncoerced (NaN); no claim depends on that corner. -/
def toNumeric : Cell → Option Rat
  | .num q => some q
  | .str s => parseRatStr s
  | .date _ => none
  | .na => none

/-- A DataFrame: column labels plus rows of cells. -/
structure DF where
  cols : List String
  rows : List (List Cell)
deriving Repr

/-- Errors `clean_data` can raise: the explicit `ValueError` for a missing
description column, the `KeyError` pandas raises on `df[col]` for an absent
column label, and the `ValueError` pandas `melt` raises (since pandas 1.1)
when `value_name` collides with an existing column label. -/
inductive CleanErr where
  | missingColumn
  | keyError (col : String)
  | valueNameClash
deriving DecidableEq, Repr

/-- Cell of a row at a column index (frames are rectangular; NaN if ragged). -/
def getCell (r : List Cell) (i : Nat) : Cell :=
  (r.get? i).getD .na

/-- `df[name]`: the column of cells under the first column labelled `name`,
or a `KeyError`. -/
def getColumn (d : DF) (name : String) : Except CleanErr (List Cell) :=
  match d.cols.findIdx? (fun c => c == name) with
  | some i => .ok (d.rows.map (fun r => getCell r i))
  | none => .error (.keyError name)

/-- The reshaped frame `melt` produces when its collision check passes: one
output row per (data column, input row), carrying the column label as the
date cell, with the description column already renamed (lines 52-53). -/
def meltBody (d : DF) (dc : String) : DF :=
  let di := (d.cols.findIdx? (fun c => c == dc)).getD 0
  let others := d.cols.enum.filter (fun p => p.2 != dc)
  ⟨["description", "date", "value"],
    others.flatMap (fun p => d.rows.map (fun r => [getCell r di, Cell.str p.2, getCell r p.1]))⟩

/-- `df.melt(id_vars=[desc_col], var_name="date", value_name="value")` followed
by the rename of the description column (lines 52-53 of the source). Since
pandas 1.1, `melt` first raises `ValueError` when the frame already has a
column literally named `value` (the `value_name` collision check; the
repository itself works around it in `db_insert.py` by renaming an existing
`value` column before melting). -/
def meltDF (d : DF) (dc : String) : Except CleanErr DF :=
  if d.cols.contains "value" then .error .valueNameClash
  else .ok (meltBody d dc)

/-- Rename the first column satisfying `pred` to `newName` (the detection
loops with `break`, lines 60-68 of the source). -/
def renameFirst (cols : List String) (pred : String → Bool) (newName : String) : List String :=
  match cols.findIdx? pred with
  | some i => cols.set i newName
  | none => cols

/-- Lines 58-63: if no column is named `date`, rename the first column whose
lower-cased label contains "date". -/
def renameDate (cols : List String) : List String :=
  if cols.contains "date" then cols
  else renameFirst cols (fun c => isSubstr "date" (lowerStr c)) "date"

/-- Lines 64-68: if no column is named `value`, rename the first column whose
lower-cased label is one of `value`, `val`, `amount`. -/
def renameValue (cols : List String) : List String :=
  if cols.contains "value" then cols
  else renameFirst cols
    (fun c => lowerStr c == "value" || lowerStr c == "val" || lowerStr c == "amount") "value"

/-- The long-format branch (lines 54-68): rename the description column, then
try to detect and rename a date-like and a value-like column. -/
def longRename (d : DF) (dc : String) : DF :=
  ⟨renameValue (renameDate (d.cols.map (fun c => if c == dc then "description" else c))),
   d.rows⟩

/-- A retained long row after date parsing and value coercion. -/
structure LRow where
  desc : String
  date : Date
  value : Rat
deriving DecidableEq, Repr

/-- The grouping key `(date, description)`. -/
def rowKey (r : LRow) : Date × String := (r.date, r.desc)

/-- Lines 70-87 of the source on the long frame: trim descriptions, parse the
date column with `_try_parse_dates`, coerce values, drop rows with an
unparsable date, then drop rows with a non-numeric value. (In the source the
value coercion happens between the two drops; the drops are row-independent,
so the retained set is the same.) -/
def prepRows (d : DF) : Except CleanErr (List LRow) :=
  match getColumn d "description" with
  | .error e => .error e
  | .ok descC =>
    match getColumn d "date" with
    | .error e => .error e
    | .ok dateC =>
      match getColumn d "value" with
      | .error e => .error e
      | .ok valC =>
        let descs := descC.map (fun c => trimStr (cellToStr c))
        let dates := tryParseDates (dateC.map (fun c => trimStr (cellToStr c)))
        let vals := valC.map toNumeric
        let rows := descs.zip (dates.zip vals)
        let rows1 := rows.filter (fun r => r.2.1.isSome)
        let rows2 := rows1.filter (fun r => r.2.2.isSome)
        .ok (rows2.map (fun r => ⟨r.1, r.2.1.getD ⟨0, 0, 0⟩, r.2.2.getD 0⟩))

/-- Lines 32-87 of `clean_data`: trim column labels, locate the description
column (else `ValueError`), choose the wide (melt) or long (rename) branch by
`len(other_cols) > 1`, and produce the retained long rows. -/
def retainedRows (df : DF) : Except CleanErr (List LRow) :=
  let cols := df.cols.map trimStr
  match cols.find? (fun c => lowerStr (trimStr c) == "description") with
  | none => .error .missingColumn
  | some dc =>
      let d1 : DF := ⟨cols, df.rows⟩
      if (cols.filter (fun c => c != dc)).length > 1 then
        match meltDF d1 dc with
        | .error e => .error e
        | .ok d2 => prepRows d2
      else prepRows (longRename d1 dc)

/-- First-occurrence deduplication, with an accumulator of already-seen
elements. -/
def dedupFAux [DecidableEq α] (seen : List α) : List α → List α
  | [] => []
  | x :: xs =>
    if seen.contains x then dedupFAux seen xs
    else x :: dedupFAux (x :: seen) xs

/-- First-occurrence deduplication (group keys of `groupby`). -/
def dedupF [DecidableEq α] (l : List α) : List α :=
  dedupFAux [] l

/-- `groupby(["date", "description"]).agg({"value": "sum"})` (line 91):
one row per distinct key, summing the values of its group. -/
def groupRows (rows : List LRow) : List LRow :=
  (dedupF (rows.map rowKey)).map (fun k =>
    ⟨k.2, k.1, qsum ((rows.filter (fun r => rowKey r == k)).map (fun r => r.value))⟩)

/-- Strict lexicographic (code-point) order on strings, as pandas sorts
string keys. -/
def charListLT : List Char → List Char → Bool
  | [], [] => false
  | [], _ :: _ => true
  | _ :: _, [] => false
  | a :: as, b :: bs => a < b || (a == b && charListLT as bs)

/-- Non-strict string order. -/
def strLE (a b : String) : Prop :=
  charListLT a.toList b.toList = true ∨ a = b

instance : DecidableRel strLE := fun a b => by
  unfold strLE; infer_instance

/-- The sort order of `sort_values(["date", "description"])`. -/
def recLE (a b : LRow) : Prop :=
  dateLT a.date b.date ∨ (a.date = b.date ∧ strLE a.desc b.desc)

instance : DecidableRel recLE := fun a b => by
  unfold recLE; infer_instance

/-- Line 98 of the source:
`lambda d: d.year if d.month >= 7 else d.year - 1`. -/
def fiscalYear (d : Date) : Int :=
  if d.month ≥ 7 then (d.year : Int) else (d.year : Int) - 1

/-- A canonical output record of the Normalizer. -/
structure Rec where
  description : String
  date : Date
  value : Rat
  fiscal_year : Int
deriving DecidableEq, Repr

/-- Lines 89-98: group duplicate keys by summation, sort ascending by
`(date, description)`, and assign the fiscal year. -/
def finalize (rows : List LRow) : List Rec :=
  (List.insertionSort recLE (groupRows rows)).map
    (fun g => ⟨g.desc, g.date, g.value, fiscalYear g.date⟩)

/-- `clean_data` from `src/data_cleaner.py`. -/
def cleanData (df : DF) : Except CleanErr (List Rec) :=
  (retainedRows df).map finalize

/-- The output record stream rendered back as a DataFrame, with the column
layout `clean_data` produces (`date, description, value, fiscal_year`); used
to feed the output back through the Normalizer. -/
def recordsToDF (recs : List Rec) : DF :=
  ⟨["date", "description", "value", "fiscal_year"],
   recs.map (fun r =>
     [Cell.date r.date, Cell.str r.description, Cell.num r.value, Cell.num (mkRat r.fiscal_year 1)])⟩

/-- `_normalize_text` from `src/feature_engineering.py`: lower-case
alphanumeric and whitespace characters, replace every other character by a
space, then strip. -/
def normalizeText (s : String) : String :=
  trimStr (String.mk (s.toList.map (fun ch =>
    if ch.isAlphanum || ch.isWhitespace then ch.toLower else ' ')))

/-- Python dict assignment `d[k] = v`: overwrite in place (keeping the key at
its first-insertion position) or append. -/
def pyInsert (m : List (String × String)) (k v : String) : List (String × String) :=
  if m.any (fun p => p.1 == k) then m.map (fun p => if p.1 == k then (k, v) else p)
  else m ++ [(k, v)]

/-- The dict comprehension `{ _normalize_text(c): c for c in cols }`:
on normalized-form collisions the later column wins, at the position of the
first occurrence. -/
def normalizedToCol (cols : List String) : List (String × String) :=
  cols.foldl (fun m c => pyInsert m (normalizeText c) c) []

/-- The keyword table of `_build_column_map`, verbatim from the source. -/
def keywords : List (String × List String) :=
  [("exports", ["export", "exports", "exports_of_goods", "exports_of_goods_fob"]),
   ("imports", ["import", "imports", "imports_of_goods", "imports_of_goods_fob"]),
   ("services_export", ["services export", "services_exports", "services_export"]),
   ("services_import", ["services import", "services_imports", "services_import"]),
   ("pi_credit", ["primary income credit", "primary income: credit", "pi credit", "pi_credit"]),
   ("pi_debit", ["primary income debit", "primary income: debit", "pi debit", "pi_debit"]),
   ("secondary_credit", ["secondary income credit", "secondary credit", "secondary_income_credit"]),
   ("secondary_debit", ["secondary income debit", "secondary debit", "secondary_income_debit"]),
   ("workers_remittances", ["workers remittances", "workers\x27 remittances", "workers_remittances", "remittances"]),
   ("current_account_balance", ["current account balance", "current_account_balance", "current_account"]),
   ("gdp", ["gdp", "gross_domestic_product", "gdp_current_prices", "gdp_current"])]

/-- The inner loops of `_build_column_map`: the first entry of the normalized
dict whose normalized form contains any keyword of the list; its original
column label is returned. -/
def findLabel (m : List (String × String)) (kws : List String) : Option String :=
  (m.find? (fun p => kws.any (fun kw => isSubstr kw p.1))).map (fun p => p.2)

/-- `_build_column_map` from `src/feature_engineering.py`. -/
def buildColumnMap (cols : List String) : List (String × String) :=
  keywords.filterMap (fun ck =>
    (findLabel (normalizedToCol cols) ck.2).map (fun l => (ck.1, l)))

/-- Python dict lookup on the association lists built above. -/
def lookupPy (m : List (String × String)) (k : String) : Option String :=
  (m.find? (fun p => p.1 == k)).map (fun p => p.2)

/-- The resolver rule as the spec states it (for comparison with
`buildColumnMap`): the first raw label, in input order, whose normalized form
contains any of the keywords. -/
def resolveSpec (lbls : List String) (kws : List String) : Option String :=
  lbls.find? (fun l => kws.any (fun kw => isSubstr kw (normalizeText l)))

/-- A pivot cell: a number or NaN. -/
abbrev Val := Option Rat

/-- The columns of the pivoted Period Matrix: labelled series of cells. -/
abbrev PCols := List (String × List Val)

/-- `pivot[name]` as an option (also `col_map` membership tests). -/
def getColV (cols : PCols) (name : String) : Option (List Val) :=
  (cols.find? (fun c => c.1 == name)).map (fun c => c.2)

/-- `name in pivot.columns`. -/
def hasColV (cols : PCols) (name : String) : Bool :=
  cols.any (fun c => c.1 == name)

/-- `pivot[name] = v`: overwrite an existing column in place, else append. -/
def setColV (cols : PCols) (name : String) (v : List Val) : PCols :=
  if cols.any (fun c => c.1 == name) then
    cols.map (fun c => if c.1 == name then (name, v) else c)
  else cols ++ [(name, v)]

/-- `pivot.rename(columns={oldName: newName})`. -/
def renameColV (cols : PCols) (oldName newName : String) : PCols :=
  cols.map (fun c => if c.1 == oldName then (newName, c.2) else c)

/-- NaN-propagating subtraction of cells. -/
def sub2 : Val → Val → Val
  | some a, some b => some (qsub a b)
  | _, _ => none

/-- NaN-propagating addition of cells. -/
def add2 : Val → Val → Val
  | some a, some b => some (qadd a b)
  | _, _ => none

/-- NaN-propagating multiplication of cells. -/
def mul2 : Val → Val → Val
  | some a, some b => some (qmul a b)
  | _, _ => none

/-- NaN-propagating division of cells (denominators of zero are replaced by
NaN before this is applied in the pipeline). -/
def div2 : Val → Val → Val
  | some a, some b => some (qdiv a b)
  | _, _ => none

/-- `series.fillna(0)`. -/
def fillna0 (v : List Val) : List Val :=
  v.map (fun x => some (x.getD 0))

/-- Element-wise series subtraction. -/
def zipSub (a b : List Val) : List Val :=
  List.zipWith sub2 a b

/-- `pivot[available].sum(axis=1)`: the pandas row sum skips NaN entries
(an all-NaN row sums to 0), so the result is never NaN. -/
def sumSkipNA (colsVals : List (List Val)) (n : Nat) : List Val :=
  (List.range n).map (fun i =>
    some (qsum (colsVals.map (fun cv => (cv[i]?.getD none).getD 0))))

/-- `series.replace({0: pd.NA})` on one cell. -/
def replace0 (v : Val) : Val :=
  if v == some 0 then none else v

/-- A boolean meta-flag broadcast over all periods. -/
def flagCol (n : Nat) (b : Bool) : List Val :=
  List.replicate n (some (if b then 1 else 0))

/-- The Period Matrix: the pivot of the long frame, dates as the index and
descriptions as column labels. -/
structure Pivot where
  dates : List Date
  cols : PCols

/-- Non-strict date order. -/
def dateLE (a b : Date) : Prop :=
  dateLT a b ∨ a = b

instance : DecidableRel dateLE := fun a b => by
  unfold dateLE; infer_instance

/-- `df.pivot(index="date", columns="description", values="value")`: sorted
distinct dates as index, sorted distinct descriptions as columns, NaN where a
(date, description) pair is absent. -/
def mkPivot (rows : List LRow) : Pivot :=
  let ds := List.insertionSort dateLE (dedupF (rows.map (fun r => r.date)))
  let descs := List.insertionSort strLE (dedupF (rows.map (fun r => r.desc)))
  ⟨ds, descs.map (fun nm =>
    (nm, ds.map (fun d =>
      (rows.find? (fun r => r.date == d && r.desc == nm)).map (fun r => r.value))))⟩

/-- The four balance components aggregated into the current account. -/
def compNames : List String :=
  ["balance_on_goods", "balance_on_services", "balance_on_primary_income",
   "balance_on_secondary_income"]

/-- `col(canon)`: read the current pivot through the once-built column map. -/
def colOfCm (cm : List (String × String)) (cols : PCols) (canon : String) : Option (List Val) :=
  (lookupPy cm canon).bind (getColV cols)

/-- Lines 67-69: `balance_on_goods = exports - imports`, only if both resolve. -/
def stepGoods (cm : List (String × String)) (cols : PCols) : PCols :=
  match colOfCm cm cols "exports", colOfCm cm cols "imports" with
  | some e, some i => setColV cols "balance_on_goods" (zipSub e i)
  | _, _ => cols

/-- Lines 71-73: `balance_on_services`, only if both operands resolve. -/
def stepServices (cm : List (String × String)) (cols : PCols) : PCols :=
  match colOfCm cm cols "services_export", colOfCm cm cols "services_import" with
  | some e, some i => setColV cols "balance_on_services" (zipSub e i)
  | _, _ => cols

/-- Lines 75-77: `balance_on_primary_income`, only if both operands resolve. -/
def stepPI (cm : List (String × String)) (cols : PCols) : PCols :=
  match colOfCm cm cols "pi_credit", colOfCm cm cols "pi_debit" with
  | some cr, some de => setColV cols "balance_on_primary_income" (zipSub cr de)
  | _, _ => cols

/-- Lines 79-92: the combined secondary credit (zero-defaulted addition of
secondary credit and remittances when at least one is present), then
`balance_on_secondary_income` when the combined credit and a debit exist.
The debit is read from the pre-combination pivot, as in the source. -/
def stepSecondary (cm : List (String × String)) (cols : PCols) : PCols :=
  let secDebit := colOfCm cm cols "secondary_debit"
  let c4 :=
    match colOfCm cm cols "secondary_credit", colOfCm cm cols "workers_remittances" with
    | some sc, some rm =>
        setColV cols "secondary_credit_combined" (List.zipWith add2 (fillna0 sc) (fillna0 rm))
    | some sc, none => setColV cols "secondary_credit_combined" (fillna0 sc)
    | none, some rm => setColV cols "secondary_credit_combined" (fillna0 rm)
    | none, none => cols
  match getColV c4 "secondary_credit_combined", secDebit with
  | some comb, some sd => setColV c4 "balance_on_secondary_income" (zipSub comb sd)
  | _, _ => c4

/-- Lines 94-98: `current_account_calculated` as the skipna row sum of the
available balance components. -/
def stepCac (n : Nat) (cols : PCols) : PCols :=
  let available := compNames.filter (fun c => hasColV cols c)
  if available.isEmpty then cols
  else setColV cols "current_account_calculated"
    (sumSkipNA (available.map (fun nm => (getColV cols nm).getD [])) n)

/-- Lines 100-105: rename a resolved reported current account and, when a
calculated series also exists, derive their difference. -/
def stepReported (cm : List (String × String)) (cols : PCols) : PCols :=
  match lookupPy cm "current_account_balance" with
  | some orig =>
      let c7 := renameColV cols orig "current_account_reported"
      match getColV c7 "current_account_reported", getColV c7 "current_account_calculated" with
      | some rep, some calcd => setColV c7 "current_account_diff" (zipSub rep calcd)
      | _, _ => c7
  | none => cols

/-- Lines 107-110: the percent-of-GDP ratio, with zero GDP cells replaced by
NaN before dividing. Modelling note: when the same raw label resolves both
`current_account_balance` and `gdp`, the rename of line 103 removes the label
and `pivot[col_map["gdp"]]` raises a `KeyError`; this embedding returns the
pivot unchanged in that corner, and no theorem below traverses it (the
scenarios proved resolve `gdp` to a label the rename never touches). -/
def stepGdp (cm : List (String × String)) (cols : PCols) : PCols :=
  match getColV cols "current_account_calculated", (lookupPy cm "gdp").bind (getColV cols) with
  | some calcd, some g =>
      setColV cols "ca_percent_gdp"
        (List.zipWith (fun c gv => mul2 (div2 c (replace0 gv)) (some 100)) calcd g)
  | _, _ => cols

/-- Lines 112-117: one availability meta-flag, broadcast over all periods. -/
def stepFlag (n : Nat) (flagName colName : String) (cols : PCols) : PCols :=
  setColV cols flagName (flagCol n (hasColV cols colName))

/-- Lines 62-117 of `create_indicators`: the conditional derivation of the
indicator hierarchy over the Period Matrix, in source order, with the column
map built once at the start. -/
def indicatorSteps (p : Pivot) : Pivot :=
  let n := p.dates.length
  let cm := buildColumnMap (p.cols.map (fun c => c.1))
  ⟨p.dates,
    stepFlag n "_has_current_account_calculated" "current_account_calculated"
      (stepFlag n "_has_balance_on_secondary_income" "balance_on_secondary_income"
        (stepFlag n "_has_balance_on_primary_income" "balance_on_primary_income"
          (stepFlag n "_has_balance_on_services" "balance_on_services"
            (stepFlag n "_has_balance_on_goods" "balance_on_goods"
              (stepGdp cm (stepReported cm (stepCac n (stepSecondary cm
                (stepPI cm (stepServices cm (stepGoods cm p.cols)))))))))))⟩

/-- `create_indicators` up to the final un-pivot: defensive duplicate
aggregation, pivot, and the indicator derivation. -/
def createIndicators (rows : List LRow) : Pivot :=
  indicatorSteps (mkPivot (groupRows rows))

/-! ## Concrete example inputs used by the theorems -/

/-- A wide table: `Description | Jul-13 | Aug-13` with one data row. -/
def wideW : DF :=
  ⟨["Description", "Jul-13", "Aug-13"], [[.str "A", .num 1, .num 2]]⟩

/-- The long-format unpivoted equivalent of `wideW`:
columns `description, date, value` with the same triples. -/
def longL : DF :=
  ⟨["description", "date", "value"],
   [[.str "A", .str "Jul-13", .num 1], [.str "A", .str "Aug-13", .num 2]]⟩

/-- The record stream `clean_data` produces from `wideW`. -/
def wideRecs : List Rec :=
  [⟨"A", ⟨2013, 7, 1⟩, 1, 2013⟩, ⟨"A", ⟨2013, 8, 1⟩, 2, 2013⟩]

/-- A long-shaped table that has a description column and a date column but
no value-like column. -/
def c4df : DF := ⟨["Description", "date"], [[.str "A", .str "2013-07-01"]]⟩

/-- A wide table whose period labels sit on both sides of the fiscal-year
boundary. -/
def fyDF : DF :=
  ⟨["Description", "2013-06-30", "2013-07-01"], [[.str "A", .num 1, .num 2]]⟩

/-- The record stream `clean_data` produces from `fyDF`. -/
def fyRecs : List Rec :=
  [⟨"A", ⟨2013, 6, 30⟩, 1, 2012⟩, ⟨"A", ⟨2013, 7, 1⟩, 2, 2013⟩]

/-- A Period Matrix where only goods data resolve and the exports series has
a missing cell in the second period. -/
def pivA : Pivot :=
  ⟨[⟨2013, 7, 1⟩, ⟨2013, 8, 1⟩],
   [("Exports of goods fob", [some 100, none]),
    ("Imports of goods fob", [some 60, some 65])]⟩

/-! ## Claim theorems -/

/-- C1: the claim says a row dated 2013-06-30 gets fiscal_year 2013 and a row
dated 2013-07-01 gets fiscal_year 2014 (fiscal years named for the calendar
year in which they end). The code (line 98 of `src/data_cleaner.py`) instead
assigns `year` when `month >= 7` and `year - 1` otherwise, which names the
fiscal year for the calendar year in which it starts: the emitted records for
those two dates carry fiscal_year 2012 and 2013, contradicting the source
comment directly above the lambda. -/
theorem fiscalYear_startYear_eval :
    cleanData fyDF = .ok fyRecs ∧
    fiscalYear ⟨2013, 6, 30⟩ = 2012 ∧ fiscalYear ⟨2013, 7, 1⟩ = 2013 ∧
    (2012 : Int) ≠ 2013 ∧ (2013 : Int) ≠ 2014 := by
  exact ⟨by rfl, by rfl, by rfl, by decide, by decide⟩

/-- C2: the claim says normalizing a wide table and normalizing its
long-format unpivoted equivalent yield identical Record sets. The code treats
any table with more than one non-description column as wide (line 50), so the
three-column long equivalent is melted again — and since the long frame
already has a column named "value", `melt(value_name="value")` raises the
pandas `ValueError` (the value_name collision check of pandas 1.1+). The wide
table yields two records while its long equivalent raises, contradicting the
docstring of `clean_data`, which says the long shape
`description, date, value` is accepted. -/
theorem roundtrip_wide_long_eval :
    cleanData wideW = .ok wideRecs ∧
    cleanData longL = .error .valueNameClash := by
  exact ⟨by rfl, by rfl⟩

/-- C3: the claim says re-normalizing the Normalizer output is a no-op. The
output frame has columns `date, description, value, fiscal_year`, so the
shape heuristic (line 50) melts it again — and because that frame contains a
column named "value", `melt(value_name="value")` raises the pandas
`ValueError` (value_name collision, pandas 1.1+): the second pass aborts
instead of returning the original records. -/
theorem renormalize_output_empties :
    cleanData wideW = .ok wideRecs ∧
    cleanData (recordsToDF wideRecs) = .error .valueNameClash := by
  refine ⟨by rfl, by rfl⟩

/-- C10: keyword containment is plain substring matching with no exclusivity:
with the single label "Services exports", the exports keyword "export" occurs
inside the normalized form "services exports", so both canonical keys
`exports` and `services_export` resolve to that same label. -/
theorem resolver_no_exclusivity :
    lookupPy (buildColumnMap ["Services exports"]) "exports" = some "Services exports" ∧
    lookupPy (buildColumnMap ["Services exports"]) "services_export" = some "Services exports" :=
  ⟨by rfl, by rfl⟩

/-- C4 counterexample: the claim says a table with a description column never
raises. The long-shaped table `c4df` (columns `Description, date`) has a
description column, yet `clean_data` raises a `KeyError` for the absent
`value` column at line 84 — an exception other than `MissingColumnError`. -/
theorem cleanData_keyError_on_long_table :
    cleanData c4df = .error (.keyError "value") ∧
    CleanErr.keyError "value" ≠ CleanErr.missingColumn := by
  exact ⟨by rfl, by simp⟩

/-- C6 counterexample: the claim says each canonical key maps to the first
label in input order whose normalized form contains a keyword. The labels
"Export A" and "Export-A" share the normalized form "export a"; the dict
comprehension of line 9 keeps the later label, so `exports` resolves to
"Export-A" although the first matching label is "Export A". -/
theorem buildColumnMap_not_first_label :
    lookupPy (buildColumnMap ["Export A", "Export-A"]) "exports" = some "Export-A" ∧
    resolveSpec ["Export A", "Export-A"]
      ["export", "exports", "exports_of_goods", "exports_of_goods_fob"] = some "Export A" ∧
    ("Export-A" : String) ≠ "Export A" := by
  exact ⟨by rfl, by rfl, by decide⟩

/-- C9 counterexample: the claim says `current_account_calculated` equals
`balance_on_goods` exactly in every period when only goods data resolve. In
`pivA` the exports cell of the second period is missing, so
`balance_on_goods` is NaN there, while the skipna row sum of line 98 yields
0 — the two series differ in that period. -/
theorem cac_skipna_ne_balance :
    getColV (indicatorSteps pivA).cols "balance_on_goods" = some [some 40, none] ∧
    getColV (indicatorSteps pivA).cols "current_account_calculated" = some [some 40, some 0] ∧
    (some (0 : Rat) : Val) ≠ none := by
  exact ⟨by rfl, by rfl, by simp⟩

/-! ## C5: the date-format fallback chain -/

/-- The format-trying loop returns the column parsed under the first format
with at least one success, and the general fallback when no format has any. -/
theorem tryFormats_eq_find (fs : List Fmt) (col : List String) :
    tryFormats fs col =
      match fs.find? (fun g => anyParsed g col) with
      | some f => col.map (parseFmt f)
      | none => col.map generalParse := by
  induction fs with
  | nil => rfl
  | cons f fs ih =>
    cases h : anyParsed f col with
    | true => simp only [tryFormats, anyParsed] at h ⊢; simp [h, List.find?_cons, anyParsed]
    | false => simp only [tryFormats, anyParsed] at h ⊢; simp [h, List.find?_cons, anyParsed, ih]

/-- C5: date parsing tries the patterns of `formats` in order; the first
pattern that parses at least one value of the column is adopted for the whole
column (so values failing under it stay unparsed, never re-tried under later
patterns), and only when no pattern parses any value is the general-purpose
per-value parser applied. -/
theorem tryParseDates_first_adopted (col : List String) :
    (∀ f, formats.find? (fun g => anyParsed g col) = some f →
      tryParseDates col = col.map (parseFmt f)) ∧
    (formats.find? (fun g => anyParsed g col) = none →
      tryParseDates col = col.map generalParse) := by
  refine ⟨fun f hf => ?_, fun hn => ?_⟩
  · rw [tryParseDates, tryFormats_eq_find, hf]
  · rw [tryParseDates, tryFormats_eq_find, hn]

/-- The column used in the C5 witness: the first value parses under `%b-%y`,
the second would parse under `%Y-%m-%d` but not under the adopted `%b-%y`. -/
def c5col : List String := ["Jul-13", "2013-08-01"]

/-- Witness for C5: `%b-%y` is the adopted pattern for `c5col`, and the
second value stays unparsed even though a later pattern would accept it. -/
theorem tryParseDates_first_adopted_witness :
    formats.find? (fun g => anyParsed g c5col) = some Fmt.bY2 ∧
    tryParseDates c5col = [some ⟨2013, 7, 1⟩, none] ∧
    parseFmt Fmt.Ymd "2013-08-01" = some ⟨2013, 8, 1⟩ := by
  have h := (tryParseDates_first_adopted c5col).1 Fmt.bY2 (by rfl)
  refine ⟨by rfl, ?_, by rfl⟩
  rw [h]; rfl

/-! ## Bridges between the reducible rational operations and the standard ones -/

/-- `qadd` is rational addition. -/
theorem qadd_eq_add (a b : Rat) : qadd a b = a + b :=
  (Rat.add_def' a b).symm

/-- `qsub` is rational subtraction. -/
theorem qsub_eq_sub (a b : Rat) : qsub a b = a - b :=
  (Rat.sub_def' a b).symm

/-- `qmul` is rational multiplication. -/
theorem qmul_eq_mul (a b : Rat) : qmul a b = a * b := by
  rw [qmul, Rat.mul_def, Rat.normalize_eq_mkRat]

/-- `qinv` is the rational inverse. -/
theorem qinv_eq_inv (a : Rat) : qinv a = a.inv :=
  (Rat.inv_def a).symm

/-- `qdiv` is rational division. -/
theorem qdiv_eq_div (a b : Rat) : qdiv a b = a / b := by
  rw [qdiv, qmul_eq_mul, qinv_eq_inv, Rat.div_def]

/-- `qsum` is the standard list sum. -/
theorem qsum_eq_sum (l : List Rat) : qsum l = l.sum := by
  induction l with
  | nil => rfl
  | cons a l ih => rw [qsum, List.foldr, ← qsum, ih, qadd_eq_add, List.sum_cons]

/-! ## C9: goods-only aggregation -/

/-- A Period Matrix whose only data are exports and imports of goods. -/
def goodsOnlyPivot (dates : List Date) (ex im : List Val) : Pivot :=
  ⟨dates, [("Exports of goods fob", ex), ("Imports of goods fob", im)]⟩

/-- Symbolic evaluation of the indicator chain on a goods-only Period
Matrix: only `balance_on_goods` is derived, the current account is its
skipna row sum, and the other three availability flags are false. -/
theorem indicatorSteps_goods_only_cols (dates : List Date) (ex im : List Val) :
    (indicatorSteps (goodsOnlyPivot dates ex im)).cols =
      [("Exports of goods fob", ex), ("Imports of goods fob", im),
       ("balance_on_goods", zipSub ex im),
       ("current_account_calculated", sumSkipNA [zipSub ex im] dates.length),
       ("_has_balance_on_goods", flagCol dates.length true),
       ("_has_balance_on_services", flagCol dates.length false),
       ("_has_balance_on_primary_income", flagCol dates.length false),
       ("_has_balance_on_secondary_income", flagCol dates.length false),
       ("_has_current_account_calculated", flagCol dates.length true)] := by
  have hcm : buildColumnMap ["Exports of goods fob", "Imports of goods fob"] =
      [("exports", "Exports of goods fob"), ("imports", "Imports of goods fob")] := rfl
  have h1 : stepGoods [("exports", "Exports of goods fob"), ("imports", "Imports of goods fob")]
      [("Exports of goods fob", ex), ("Imports of goods fob", im)] =
      [("Exports of goods fob", ex), ("Imports of goods fob", im),
       ("balance_on_goods", zipSub ex im)] := rfl
  have h2 : stepServices [("exports", "Exports of goods fob"), ("imports", "Imports of goods fob")]
      [("Exports of goods fob", ex), ("Imports of goods fob", im),
       ("balance_on_goods", zipSub ex im)] =
      [("Exports of goods fob", ex), ("Imports of goods fob", im),
       ("balance_on_goods", zipSub ex im)] := rfl
  have h3 : stepPI [("exports", "Exports of goods fob"), ("imports", "Imports of goods fob")]
      [("Exports of goods fob", ex), ("Imports of goods fob", im),
       ("balance_on_goods", zipSub ex im)] =
      [("Exports of goods fob", ex), ("Imports of goods fob", im),
       ("balance_on_goods", zipSub ex im)] := rfl
  have h4 : stepSecondary [("exports", "Exports of goods fob"), ("imports", "Imports of goods fob")]
      [("Exports of goods fob", ex), ("Imports of goods fob", im),
       ("balance_on_goods", zipSub ex im)] =
      [("Exports of goods fob", ex), ("Imports of goods fob", im),
       ("balance_on_goods", zipSub ex im)] := rfl
  have h5 : stepCac dates.length
      [("Exports of goods fob", ex), ("Imports of goods fob", im),
       ("balance_on_goods", zipSub ex im)] =
      [("Exports of goods fob", ex), ("Imports of goods fob", im),
       ("balance_on_goods", zipSub ex im),
       ("current_account_calculated", sumSkipNA [zipSub ex im] dates.length)] := rfl
  have h6 : stepReported [("exports", "Exports of goods fob"), ("imports", "Imports of goods fob")]
      [("Exports of goods fob", ex), ("Imports of goods fob", im),
       ("balance_on_goods", zipSub ex im),
       ("current_account_calculated", sumSkipNA [zipSub ex im] dates.length)] =
      [("Exports of goods fob", ex), ("Imports of goods fob", im),
       ("balance_on_goods", zipSub ex im),
       ("current_account_calculated", sumSkipNA [zipSub ex im] dates.length)] := rfl
  have h7 : stepGdp [("exports", "Exports of goods fob"), ("imports", "Imports of goods fob")]
      [("Exports of goods fob", ex), ("Imports of goods fob", im),
       ("balance_on_goods", zipSub ex im),
       ("current_account_calculated", sumSkipNA [zipSub ex im] dates.length)] =
      [("Exports of goods fob", ex), ("Imports of goods fob", im),
       ("balance_on_goods", zipSub ex im),
       ("current_account_calculated", sumSkipNA [zipSub ex im] dates.length)] := rfl
  have h8 : stepFlag dates.length "_has_balance_on_goods" "balance_on_goods"
      [("Exports of goods fob", ex), ("Imports of goods fob", im),
       ("balance_on_goods", zipSub ex im),
       ("current_account_calculated", sumSkipNA [zipSub ex im] dates.length)] =
      [("Exports of goods fob", ex), ("Imports of goods fob", im),
       ("balance_on_goods", zipSub ex im),
       ("current_account_calculated", sumSkipNA [zipSub ex im] dates.length),
       ("_has_balance_on_goods", flagCol dates.length true)] := rfl
  have h9 : stepFlag dates.length "_has_balance_on_services" "balance_on_services"
      [("Exports of goods fob", ex), ("Imports of goods fob", im),
       ("balance_on_goods", zipSub ex im),
       ("current_account_calculated", sumSkipNA [zipSub ex im] dates.length),
       ("_has_balance_on_goods", flagCol dates.length true)] =
      [("Exports of goods fob", ex), ("Imports of goods fob", im),
       ("balance_on_goods", zipSub ex im),
       ("current_account_calculated", sumSkipNA [zipSub ex im] dates.length),
       ("_has_balance_on_goods", flagCol dates.length true),
       ("_has_balance_on_services", flagCol dates.length false)] := rfl
  have h10 : stepFlag dates.length "_has_balance_on_primary_income" "balance_on_primary_income"
      [("Exports of goods fob", ex), ("Imports of goods fob", im),
       ("balance_on_goods", zipSub ex im),
       ("current_account_calculated", sumSkipNA [zipSub ex im] dates.length),
       ("_has_balance_on_goods", flagCol dates.length true),
       ("_has_balance_on_services", flagCol dates.length false)] =
      [("Exports of goods fob", ex), ("Imports of goods fob", im),
       ("balance_on_goods", zipSub ex im),
       ("current_account_calculated", sumSkipNA [zipSub ex im] dates.length),
       ("_has_balance_on_goods", flagCol dates.length true),
       ("_has_balance_on_services", flagCol dates.length false),
       ("_has_balance_on_primary_income", flagCol dates.length false)] := rfl
  have h11 : stepFlag dates.length "_has_balance_on_secondary_income" "balance_on_secondary_income"
      [("Exports of goods fob", ex), ("Imports of goods fob", im),
       ("balance_on_goods", zipSub ex im),
       ("current_account_calculated", sumSkipNA [zipSub ex im] dates.length),
       ("_has_balance_on_goods", flagCol dates.length true),
       ("_has_balance_on_services", flagCol dates.length false),
       ("_has_balance_on_primary_income", flagCol dates.length false)] =
      [("Exports of goods fob", ex), ("Imports of goods fob", im),
       ("balance_on_goods", zipSub ex im),
       ("current_account_calculated", sumSkipNA [zipSub ex im] dates.length),
       ("_has_balance_on_goods", flagCol dates.length true),
       ("_has_balance_on_services", flagCol dates.length false),
       ("_has_balance_on_primary_income", flagCol dates.length false),
       ("_has_balance_on_secondary_income", flagCol dates.length false)] := rfl
  have h12 : stepFlag dates.length "_has_current_account_calculated" "current_account_calculated"
      [("Exports of goods fob", ex), ("Imports of goods fob", im),
       ("balance_on_goods", zipSub ex im),
       ("current_account_calculated", sumSkipNA [zipSub ex im] dates.length),
       ("_has_balance_on_goods", flagCol dates.length true),
       ("_has_balance_on_services", flagCol dates.length false),
       ("_has_balance_on_primary_income", flagCol dates.length false),
       ("_has_balance_on_secondary_income", flagCol dates.length false)] =
      [("Exports of goods fob", ex), ("Imports of goods fob", im),
       ("balance_on_goods", zipSub ex im),
       ("current_account_calculated", sumSkipNA [zipSub ex im] dates.length),
       ("_has_balance_on_goods", flagCol dates.length true),
       ("_has_balance_on_services", flagCol dates.length false),
       ("_has_balance_on_primary_income", flagCol dates.length false),
       ("_has_balance_on_secondary_income", flagCol dates.length false),
       ("_has_current_account_calculated", flagCol dates.length true)] := rfl
  simp only [indicatorSteps, goodsOnlyPivot, List.map_cons, List.map_nil]
  rw [hcm, h1, h2, h3, h4, h5, h6, h7, h8, h9, h10, h11, h12]

/-- C9 (amended): when only `balance_on_goods` is computable,
`current_account_calculated` equals `balance_on_goods` at every period where
that balance is present, and is 0 (the skipna row sum of no values) at
periods where it is missing; the availability flags of the other three
components are false. (The original claim's "equals exactly in every period"
fails at missing cells, see `cac_skipna_ne_balance`.) -/
theorem cac_goods_only (dates : List Date) (ex im : List Val)
    (hex : ex.length = dates.length) (him : im.length = dates.length) :
    getColV (indicatorSteps (goodsOnlyPivot dates ex im)).cols "balance_on_goods" =
      some (zipSub ex im) ∧
    getColV (indicatorSteps (goodsOnlyPivot dates ex im)).cols "_has_balance_on_services" =
      some (flagCol dates.length false) ∧
    getColV (indicatorSteps (goodsOnlyPivot dates ex im)).cols "_has_balance_on_primary_income" =
      some (flagCol dates.length false) ∧
    getColV (indicatorSteps (goodsOnlyPivot dates ex im)).cols "_has_balance_on_secondary_income" =
      some (flagCol dates.length false) ∧
    ∀ (i : Nat) (b : Val), (zipSub ex im)[i]? = some b →
      ∃ cac, getColV (indicatorSteps (goodsOnlyPivot dates ex im)).cols
          "current_account_calculated" = some cac ∧
        cac[i]? = some (some (b.getD 0)) := by
  rw [indicatorSteps_goods_only_cols]
  refine ⟨rfl, rfl, rfl, rfl, fun i b hb => ?_⟩
  refine ⟨sumSkipNA [zipSub ex im] dates.length, rfl, ?_⟩
  have hi : i < dates.length := by
    by_contra hcon
    rw [List.getElem?_eq_none (by
      rw [zipSub, List.length_zipWith, hex, him, Nat.min_self]
      exact Nat.le_of_not_lt hcon)] at hb
    exact Option.noConfusion hb
  rw [sumSkipNA, List.getElem?_map, List.getElem?_range hi]
  simp only [Option.map_some', List.map_cons, List.map_nil, hb, Option.getD_some]
  simp only [qsum, List.foldr_cons, List.foldr_nil, qadd_eq_add, add_zero]

/-! ## C7: zero-GDP safety of the percent-of-GDP ratio -/

/-- A Period Matrix with goods data plus a GDP series. -/
def gdpPivot (dates : List Date) (ex im g : List Val) : Pivot :=
  ⟨dates, [("Exports of goods fob", ex), ("Imports of goods fob", im),
    ("Gdp at market prices", g)]⟩

/-- Symbolic evaluation of the indicator chain on a goods-plus-GDP Period
Matrix: `balance_on_goods`, its skipna row sum, and the percent-of-GDP ratio
with zero GDP cells replaced by NaN before dividing. -/
theorem indicatorSteps_gdp_cols (dates : List Date) (ex im g : List Val) :
    (indicatorSteps (gdpPivot dates ex im g)).cols =
      [("Exports of goods fob", ex),
       ("Imports of goods fob", im),
       ("Gdp at market prices", g),
       ("balance_on_goods", zipSub ex im),
       ("current_account_calculated", sumSkipNA [zipSub ex im] dates.length),
       ("ca_percent_gdp", List.zipWith (fun c gv => mul2 (div2 c (replace0 gv)) (some 100)) (sumSkipNA [zipSub ex im] dates.length) g),
       ("_has_balance_on_goods", flagCol dates.length true),
       ("_has_balance_on_services", flagCol dates.length false),
       ("_has_balance_on_primary_income", flagCol dates.length false),
       ("_has_balance_on_secondary_income", flagCol dates.length false),
       ("_has_current_account_calculated", flagCol dates.length true)] := by
  have hcm : buildColumnMap ["Exports of goods fob", "Imports of goods fob",
      "Gdp at market prices"] =
      [("exports", "Exports of goods fob"), ("imports", "Imports of goods fob"), ("gdp", "Gdp at market prices")] := rfl
  have h1 : stepGoods [("exports", "Exports of goods fob"), ("imports", "Imports of goods fob"), ("gdp", "Gdp at market prices")]
      [("Exports of goods fob", ex),
       ("Imports of goods fob", im),
       ("Gdp at market prices", g)] =
      [("Exports of goods fob", ex),
       ("Imports of goods fob", im),
       ("Gdp at market prices", g),
       ("balance_on_goods", zipSub ex im)] := rfl
  have h2 : stepServices [("exports", "Exports of goods fob"), ("imports", "Imports of goods fob"), ("gdp", "Gdp at market prices")]
      [("Exports of goods fob", ex),
       ("Imports of goods fob", im),
       ("Gdp at market prices", g),
       ("balance_on_goods", zipSub ex im)] =
      [("Exports of goods fob", ex),
       ("Imports of goods fob", im),
       ("Gdp at market prices", g),
       ("balance_on_goods", zipSub ex im)] := rfl
  have h3 : stepPI [("exports", "Exports of goods fob"), ("imports", "Imports of goods fob"), ("gdp", "Gdp at market prices")]
      [("Exports of goods fob", ex),
       ("Imports of goods fob", im),
       ("Gdp at market prices", g),
       ("balance_on_goods", zipSub ex im)] =
      [("Exports of goods fob", ex),
       ("Imports of goods fob", im),
       ("Gdp at market prices", g),
       ("balance_on_goods", zipSub ex im)] := rfl
  have h4 : stepSecondary [("exports", "Exports of goods fob"), ("imports", "Imports of goods fob"), ("gdp", "Gdp at market prices")]
      [("Exports of goods fob", ex),
       ("Imports of goods fob", im),
       ("Gdp at market prices", g),
       ("balance_on_goods", zipSub ex im)] =
      [("Exports of goods fob", ex),
       ("Imports of goods fob", im),
       ("Gdp at market prices", g),
       ("balance_on_goods", zipSub ex im)] := rfl
  have h5 : stepCac dates.length
      [("Exports of goods fob", ex),
       ("Imports of goods fob", im),
       ("Gdp at market prices", g),
       ("balance_on_goods", zipSub ex im)] =
      [("Exports of goods fob", ex),
       ("Imports of goods fob", im),
       ("Gdp at market prices", g),
       ("balance_on_goods", zipSub ex im),
       ("current_account_calculated", sumSkipNA [zipSub ex im] dates.length)] := rfl
  have h6 : stepReported [("exports", "Exports of goods fob"), ("imports", "Imports of goods fob"), ("gdp", "Gdp at market prices")]
      [("Exports of goods fob", ex),
       ("Imports of goods fob", im),
       ("Gdp at market prices", g),
       ("balance_on_goods", zipSub ex im),
       ("current_account_calculated", sumSkipNA [zipSub ex im] dates.length)] =
      [("Exports of goods fob", ex),
       ("Imports of goods fob", im),
       ("Gdp at market prices", g),
       ("balance_on_goods", zipSub ex im),
       ("current_account_calculated", sumSkipNA [zipSub ex im] dates.length)] := rfl
  have h7 : stepGdp [("exports", "Exports of goods fob"), ("imports", "Imports of goods fob"), ("gdp", "Gdp at market prices")]
      [("Exports of goods fob", ex),
       ("Imports of goods fob", im),
       ("Gdp at market prices", g),
       ("balance_on_goods", zipSub ex im),
       ("current_account_calculated", sumSkipNA [zipSub ex im] dates.length)] =
      [("Exports of goods fob", ex),
       ("Imports of goods fob", im),
       ("Gdp at market prices", g),
       ("balance_on_goods", zipSub ex im),
       ("current_account_calculated", sumSkipNA [zipSub ex im] dates.length),
       ("ca_percent_gdp", List.zipWith (fun c gv => mul2 (div2 c (replace0 gv)) (some 100)) (sumSkipNA [zipSub ex im] dates.length) g)] := rfl
  have h8 : stepFlag dates.length "_has_balance_on_goods" "balance_on_goods"
      [("Exports of goods fob", ex),
       ("Imports of goods fob", im),
       ("Gdp at market prices", g),
       ("balance_on_goods", zipSub ex im),
       ("current_account_calculated", sumSkipNA [zipSub ex im] dates.length),
       ("ca_percent_gdp", List.zipWith (fun c gv => mul2 (div2 c (replace0 gv)) (some 100)) (sumSkipNA [zipSub ex im] dates.length) g)] =
      [("Exports of goods fob", ex),
       ("Imports of goods fob", im),
       ("Gdp at market prices", g),
       ("balance_on_goods", zipSub ex im),
       ("current_account_calculated", sumSkipNA [zipSub ex im] dates.length),
       ("ca_percent_gdp", List.zipWith (fun c gv => mul2 (div2 c (replace0 gv)) (some 100)) (sumSkipNA [zipSub ex im] dates.length) g),
       ("_has_balance_on_goods", flagCol dates.length true)] := rfl
  have h9 : stepFlag dates.length "_has_balance_on_services" "balance_on_services"
      [("Exports of goods fob", ex),
       ("Imports of goods fob", im),
       ("Gdp at market prices", g),
       ("balance_on_goods", zipSub ex im),
       ("current_account_calculated", sumSkipNA [zipSub ex im] dates.length),
       ("ca_percent_gdp", List.zipWith (fun c gv => mul2 (div2 c (replace0 gv)) (some 100)) (sumSkipNA [zipSub ex im] dates.length) g),
       ("_has_balance_on_goods", flagCol dates.length true)] =
      [("Exports of goods fob", ex),
       ("Imports of goods fob", im),
       ("Gdp at market prices", g),
       ("balance_on_goods", zipSub ex im),
       ("current_account_calculated", sumSkipNA [zipSub ex im] dates.length),
       ("ca_percent_gdp", List.zipWith (fun c gv => mul2 (div2 c (replace0 gv)) (some 100)) (sumSkipNA [zipSub ex im] dates.length) g),
       ("_has_balance_on_goods", flagCol dates.length true),
       ("_has_balance_on_services", flagCol dates.length false)] := rfl
  have h10 : stepFlag dates.length "_has_balance_on_primary_income" "balance_on_primary_income"
      [("Exports of goods fob", ex),
       ("Imports of goods fob", im),
       ("Gdp at market prices", g),
       ("balance_on_goods", zipSub ex im),
       ("current_account_calculated", sumSkipNA [zipSub ex im] dates.length),
       ("ca_percent_gdp", List.zipWith (fun c gv => mul2 (div2 c (replace0 gv)) (some 100)) (sumSkipNA [zipSub ex im] dates.length) g),
       ("_has_balance_on_goods", flagCol dates.length true),
       ("_has_balance_on_services", flagCol dates.length false)] =
      [("Exports of goods fob", ex),
       ("Imports of goods fob", im),
       ("Gdp at market prices", g),
       ("balance_on_goods", zipSub ex im),
       ("current_account_calculated", sumSkipNA [zipSub ex im] dates.length),
       ("ca_percent_gdp", List.zipWith (fun c gv => mul2 (div2 c (replace0 gv)) (some 100)) (sumSkipNA [zipSub ex im] dates.length) g),
       ("_has_balance_on_goods", flagCol dates.length true),
       ("_has_balance_on_services", flagCol dates.length false),
       ("_has_balance_on_primary_income", flagCol dates.length false)] := rfl
  have h11 : stepFlag dates.length "_has_balance_on_secondary_income" "balance_on_secondary_income"
      [("Exports of goods fob", ex),
       ("Imports of goods fob", im),
       ("Gdp at market prices", g),
       ("balance_on_goods", zipSub ex im),
       ("current_account_calculated", sumSkipNA [zipSub ex im] dates.length),
       ("ca_percent_gdp", List.zipWith (fun c gv => mul2 (div2 c (replace0 gv)) (some 100)) (sumSkipNA [zipSub ex im] dates.length) g),
       ("_has_balance_on_goods", flagCol dates.length true),
       ("_has_balance_on_services", flagCol dates.length false),
       ("_has_balance_on_primary_income", flagCol dates.length false)] =
      [("Exports of goods fob", ex),
       ("Imports of goods fob", im),
       ("Gdp at market prices", g),
       ("balance_on_goods", zipSub ex im),
       ("current_account_calculated", sumSkipNA [zipSub ex im] dates.length),
       ("ca_percent_gdp", List.zipWith (fun c gv => mul2 (div2 c (replace0 gv)) (some 100)) (sumSkipNA [zipSub ex im] dates.length) g),
       ("_has_balance_on_goods", flagCol dates.length true),
       ("_has_balance_on_services", flagCol dates.length false),
       ("_has_balance_on_primary_income", flagCol dates.length false),
       ("_has_balance_on_secondary_income", flagCol dates.length false)] := rfl
  have h12 : stepFlag dates.length "_has_current_account_calculated" "current_account_calculated"
      [("Exports of goods fob", ex),
       ("Imports of goods fob", im),
       ("Gdp at market prices", g),
       ("balance_on_goods", zipSub ex im),
       ("current_account_calculated", sumSkipNA [zipSub ex im] dates.length),
       ("ca_percent_gdp", List.zipWith (fun c gv => mul2 (div2 c (replace0 gv)) (some 100)) (sumSkipNA [zipSub ex im] dates.length) g),
       ("_has_balance_on_goods", flagCol dates.length true),
       ("_has_balance_on_services", flagCol dates.length false),
       ("_has_balance_on_primary_income", flagCol dates.length false),
       ("_has_balance_on_secondary_income", flagCol dates.length false)] =
      [("Exports of goods fob", ex),
       ("Imports of goods fob", im),
       ("Gdp at market prices", g),
       ("balance_on_goods", zipSub ex im),
       ("current_account_calculated", sumSkipNA [zipSub ex im] dates.length),
       ("ca_percent_gdp", List.zipWith (fun c gv => mul2 (div2 c (replace0 gv)) (some 100)) (sumSkipNA [zipSub ex im] dates.length) g),
       ("_has_balance_on_goods", flagCol dates.length true),
       ("_has_balance_on_services", flagCol dates.length false),
       ("_has_balance_on_primary_income", flagCol dates.length false),
       ("_has_balance_on_secondary_income", flagCol dates.length false),
       ("_has_current_account_calculated", flagCol dates.length true)] := rfl
  simp only [indicatorSteps, gdpPivot, List.map_cons, List.map_nil]
  rw [hcm, h1, h2, h3, h4, h5, h6, h7, h8, h9, h10, h11, h12]

/-- `replace({0: NA})` leaves a nonzero cell unchanged. -/
theorem replace0_some_of_ne {v : Rat} (h : v ≠ 0) : replace0 (some v) = some v := by
  simp [replace0, beq_iff_eq, h]

/-- An element of the skipna row sum below every valid index is present. -/
theorem sumSkipNA_getElem? (colsVals : List (List Val)) {n i : Nat} (hi : i < n) :
    (sumSkipNA colsVals n)[i]? =
      some (some (qsum (colsVals.map (fun cv => (cv[i]?.getD none).getD 0)))) := by
  rw [sumSkipNA, List.getElem?_map, List.getElem?_range hi, Option.map_some']

/-- C7: with goods data and a resolved GDP series, the engine emits a
`ca_percent_gdp` series in which every period whose GDP value is 0 is a
missing value (no arithmetic failure), while every period with nonzero GDP
and a present calculated current account gets
`current_account_calculated / gdp * 100`. -/
theorem caPercentGdp_zero_safe (dates : List Date) (ex im g : List Val) :
    ∃ cac pg,
      getColV (indicatorSteps (gdpPivot dates ex im g)).cols "current_account_calculated" =
        some cac ∧
      getColV (indicatorSteps (gdpPivot dates ex im g)).cols "ca_percent_gdp" = some pg ∧
      ∀ (i : Nat), i < dates.length →
        (g[i]? = some (some 0) → pg[i]? = some none) ∧
        (∀ (v : Rat), g[i]? = some (some v) → v ≠ 0 →
          ∀ (c : Rat), cac[i]? = some (some c) → pg[i]? = some (some (c / v * 100))) := by
  rw [indicatorSteps_gdp_cols]
  refine ⟨sumSkipNA [zipSub ex im] dates.length,
    List.zipWith (fun c gv => mul2 (div2 c (replace0 gv)) (some 100))
      (sumSkipNA [zipSub ex im] dates.length) g, rfl, rfl, fun i hi => ?_⟩
  have hcac := sumSkipNA_getElem? [zipSub ex im] hi
  constructor
  · intro hz
    rw [List.getElem?_zipWith, hcac, hz]
    rfl
  · intro v hv hvne c hc
    have hXc : qsum (List.map (fun cv => (cv[i]?.getD none).getD 0) [zipSub ex im]) = c := by
      rw [hcac] at hc
      exact Option.some.inj (Option.some.inj hc)
    rw [List.getElem?_zipWith, hcac, hv, hXc]
    show some (mul2 (div2 (some c) (replace0 (some v))) (some 100)) = some (some (c / v * 100))
    rw [replace0_some_of_ne hvne]
    show some (some (qmul (qdiv c v) 100)) = some (some (c / v * 100))
    rw [qdiv_eq_div, qmul_eq_mul]

/-- Witness for C7: two periods with GDP 0 and 400; the first ratio is
missing, the second is (100-60+110-65)/400*100. -/
theorem caPercentGdp_zero_safe_witness :
    ∃ cac pg,
      getColV (indicatorSteps (gdpPivot [⟨2013, 7, 1⟩, ⟨2013, 8, 1⟩]
        [some 100, some 110] [some 60, some 65] [some 0, some 400])).cols
        "current_account_calculated" = some cac ∧
      getColV (indicatorSteps (gdpPivot [⟨2013, 7, 1⟩, ⟨2013, 8, 1⟩]
        [some 100, some 110] [some 60, some 65] [some 0, some 400])).cols
        "ca_percent_gdp" = some pg ∧
      pg[0]? = some none ∧ pg[1]? = some (some ((45 : Rat) / 400 * 100)) := by
  obtain ⟨cac, pg, h1, h2, h3⟩ := caPercentGdp_zero_safe [⟨2013, 7, 1⟩, ⟨2013, 8, 1⟩]
    [some 100, some 110] [some 60, some 65] [some 0, some 400]
  refine ⟨cac, pg, h1, h2, (h3 0 (by decide)).1 (by rfl), ?_⟩
  have hcac : cac = sumSkipNA [zipSub [some 100, some 110] [some 60, some 65]] 2 := by
    have h0 : getColV (indicatorSteps (gdpPivot [⟨2013, 7, 1⟩, ⟨2013, 8, 1⟩]
        [some 100, some 110] [some 60, some 65] [some 0, some 400])).cols
        "current_account_calculated" =
        some (sumSkipNA [zipSub [some 100, some 110] [some 60, some 65]] 2) := by rfl
    rw [h0] at h1
    exact (Option.some.inj h1).symm
  refine (h3 1 (by decide)).2 400 (by rfl) (by decide) 45 ?_
  rw [hcac]
  rfl

/-- Witness for C9: on the Period Matrix `pivA` (goods only, exports missing
in period 2) the calculated current account is present and equals the
balance on goods where that balance is present. -/
theorem cac_goods_only_witness :
    ∃ cac, getColV (indicatorSteps (goodsOnlyPivot [⟨2013, 7, 1⟩, ⟨2013, 8, 1⟩]
        [some 100, none] [some 60, some 65])).cols "current_account_calculated" = some cac ∧
      cac[0]? = some (some 40) := by
  have h := (cac_goods_only [⟨2013, 7, 1⟩, ⟨2013, 8, 1⟩] [some 100, none] [some 60, some 65]
    (by rfl) (by rfl)).2.2.2.2 0 (some 40) (by rfl)
  simpa using h

/-! ## C6: the Column Resolver against the first-match rule -/

/-- `pyInsert` with a fresh key appends. -/
theorem pyInsert_fresh (m : List (String × String)) (k v : String)
    (h : m.any (fun p => p.1 == k) = false) : pyInsert m k v = m ++ [(k, v)] := by
  rw [pyInsert, h]
  simp

/-- Folding the dict comprehension over labels with pairwise distinct
normalized forms appends one entry per label, in order. -/
theorem foldl_pyInsert_of_nodup (lbls : List String) :
    ∀ acc : List (String × String),
      (acc.map Prod.fst ++ lbls.map normalizeText).Nodup →
      lbls.foldl (fun m c => pyInsert m (normalizeText c) c) acc =
        acc ++ lbls.map (fun l => (normalizeText l, l)) := by
  induction lbls with
  | nil => intro acc _; simp
  | cons x xs ih =>
    intro acc hnd
    have hx : normalizeText x ∉ acc.map Prod.fst := fun hmem =>
      (List.nodup_append.mp hnd).2.2 hmem (by simp)
    have hany : acc.any (fun p => p.1 == normalizeText x) = false := by
      rw [Bool.eq_false_iff]
      intro hc
      rcases List.any_eq_true.mp hc with ⟨p, hp, he⟩
      exact hx (List.mem_map.mpr ⟨p, hp, beq_iff_eq.mp he⟩)
    rw [List.foldl_cons, pyInsert_fresh acc _ x hany, ih]
    · simp
    · rw [List.map_append]
      have : (acc.map Prod.fst ++ [(normalizeText x, x)].map Prod.fst) ++ xs.map normalizeText =
          acc.map Prod.fst ++ (x :: xs).map normalizeText := by simp
      rw [this]
      exact hnd

/-- Over labels with pairwise distinct normalized forms, scanning the
normalized dict is scanning the labels in input order. -/
theorem findLabel_map_norm (lbls : List String) (kws : List String) :
    findLabel (lbls.map (fun l => (normalizeText l, l))) kws = resolveSpec lbls kws := by
  rw [findLabel, resolveSpec, List.find?_map, Option.map_map]
  simp only [Function.comp_def]
  simp

/-- C6 (amended): when the labels' normalized forms are pairwise distinct
(the dict comprehension of line 9 otherwise keeps only the last label of a
collision group), the Column Resolver maps each canonical key, in declared
key order, to the first label in the input's iteration order whose normalized
form contains any of that key's keywords, and omits keys with no matching
label. -/
theorem buildColumnMap_eq_resolveSpec (lbls : List String)
    (hnd : (lbls.map normalizeText).Nodup) :
    buildColumnMap lbls = keywords.filterMap (fun ck =>
      (resolveSpec lbls ck.2).map (fun l => (ck.1, l))) := by
  have hntc : normalizedToCol lbls = lbls.map (fun l => (normalizeText l, l)) := by
    have h := foldl_pyInsert_of_nodup lbls [] (by simpa using hnd)
    simpa [normalizedToCol] using h
  rw [buildColumnMap]
  have hfun : (fun ck : String × List String =>
      (findLabel (normalizedToCol lbls) ck.2).map (fun l => (ck.1, l))) =
      (fun ck : String × List String =>
      (resolveSpec lbls ck.2).map (fun l => (ck.1, l))) := by
    funext ck
    rw [hntc, findLabel_map_norm]
  rw [hfun]

/-- Witness for C6: the spec's concrete example has distinct normalized
forms, and the resolver output is exactly the two expected entries. -/
theorem buildColumnMap_eq_resolveSpec_witness :
    (["Exports of goods fob", "Imports of goods fob"].map normalizeText).Nodup ∧
    buildColumnMap ["Exports of goods fob", "Imports of goods fob"] =
      [("exports", "Exports of goods fob"), ("imports", "Imports of goods fob")] := by
  refine ⟨by decide, ?_⟩
  rw [buildColumnMap_eq_resolveSpec _ (by decide)]
  rfl

/-! ## C8: uniqueness and ordering of the Normalizer output -/

/-- `dateLT` is transitive. -/
theorem dateLT_trans {a b c : Date} (h1 : dateLT a b) (h2 : dateLT b c) : dateLT a c := by
  rcases a with ⟨y1, m1, d1⟩; rcases b with ⟨y2, m2, d2⟩; rcases c with ⟨y3, m3, d3⟩
  simp only [dateLT] at h1 h2 ⊢
  omega

/-- Dates unrelated by `dateLT` either way are equal. -/
theorem dateLT_conn {a b : Date} (h1 : ¬ dateLT a b) (h2 : ¬ dateLT b a) : a = b := by
  rcases a with ⟨y1, m1, d1⟩; rcases b with ⟨y2, m2, d2⟩
  simp only [dateLT, Date.mk.injEq] at h1 h2 ⊢
  omega

/-- The code-point order on char lists is transitive. -/
theorem charListLT_trans : ∀ (a b c : List Char), charListLT a b = true →
    charListLT b c = true → charListLT a c = true := by
  intro a
  induction a with
  | nil =>
    intro b c h1 h2
    cases b with
    | nil => simp [charListLT] at h1
    | cons hb tb =>
      cases c with
      | nil => simp [charListLT] at h2
      | cons hc tc => simp [charListLT]
  | cons ha ta ih =>
    intro b c h1 h2
    cases b with
    | nil => simp [charListLT] at h1
    | cons hb tb =>
      cases c with
      | nil => simp [charListLT] at h2
      | cons hc tc =>
        simp only [charListLT, Bool.or_eq_true, Bool.and_eq_true, decide_eq_true_eq,
          beq_iff_eq] at h1 h2 ⊢
        rcases h1 with h1 | ⟨he1, h1⟩
        · rcases h2 with h2 | ⟨he2, h2⟩
          · exact Or.inl (lt_trans h1 h2)
          · exact Or.inl (he2 ▸ h1)
        · rcases h2 with h2 | ⟨he2, h2⟩
          · refine Or.inl ?_
            rw [he1]
            exact h2
          · exact Or.inr ⟨he1.trans he2, ih tb tc h1 h2⟩

/-- Char lists unrelated by the code-point order either way are equal. -/
theorem charListLT_conn : ∀ (a b : List Char), charListLT a b = false →
    charListLT b a = false → a = b := by
  intro a
  induction a with
  | nil =>
    intro b h1 _
    cases b with
    | nil => rfl
    | cons hb tb => simp [charListLT] at h1
  | cons ha ta ih =>
    intro b h1 h2
    cases b with
    | nil => simp [charListLT] at h2
    | cons hb tb =>
      simp only [charListLT, Bool.or_eq_false_iff, Bool.and_eq_false_iff,
        decide_eq_false_iff_not, beq_eq_false_iff_ne, ne_eq] at h1 h2
      have hab : ha = hb := le_antisymm (le_of_not_lt h2.1) (le_of_not_lt h1.1)
      rcases h1.2 with hne | hlt1
      · exact absurd hab hne
      · rcases h2.2 with hne | hlt2
        · exact absurd hab.symm hne
        · rw [hab, ih tb hlt1 hlt2]

/-- `strLE` is total. -/
theorem strLE_total (a b : String) : strLE a b ∨ strLE b a := by
  cases h1 : charListLT a.toList b.toList
  · cases h2 : charListLT b.toList a.toList
    · exact Or.inl (Or.inr (String.ext (charListLT_conn _ _ h1 h2)))
    · exact Or.inr (Or.inl h2)
  · exact Or.inl (Or.inl h1)

/-- `strLE` is transitive. -/
theorem strLE_trans {a b c : String} (h1 : strLE a b) (h2 : strLE b c) : strLE a c := by
  rcases h1 with h1 | rfl
  · rcases h2 with h2 | rfl
    · exact Or.inl (charListLT_trans _ _ _ h1 h2)
    · exact Or.inl h1
  · exact h2

instance : IsTrans LRow recLE where
  trans a b c h1 h2 := by
    rcases h1 with h1 | ⟨he1, hs1⟩
    · rcases h2 with h2 | ⟨he2, hs2⟩
      · exact Or.inl (dateLT_trans h1 h2)
      · exact Or.inl (he2 ▸ h1)
    · rcases h2 with h2 | ⟨he2, hs2⟩
      · refine Or.inl ?_
        rw [he1]
        exact h2
      · exact Or.inr ⟨he1.trans he2, strLE_trans hs1 hs2⟩

instance : IsTotal LRow recLE where
  total a b := by
    by_cases hd : dateLT a.date b.date
    · exact Or.inl (Or.inl hd)
    · by_cases hd2 : dateLT b.date a.date
      · exact Or.inr (Or.inl hd2)
      · have he := dateLT_conn hd hd2
        rcases strLE_total a.desc b.desc with hs | hs
        · exact Or.inl (Or.inr ⟨he, hs⟩)
        · exact Or.inr (Or.inr ⟨he.symm, hs⟩)

/-- Every element produced by the deduplication pass is outside the seen
accumulator and drawn from the input. -/
theorem mem_dedupFAux [DecidableEq α] :
    ∀ (l : List α) (seen : List α) (x : α), x ∈ dedupFAux seen l → x ∈ l ∧ x ∉ seen := by
  intro l
  induction l with
  | nil => intro seen x hx; simp [dedupFAux] at hx
  | cons a as ih =>
    intro seen x hx
    rw [dedupFAux] at hx
    by_cases hc : seen.contains a
    · rw [if_pos hc] at hx
      rcases ih seen x hx with ⟨h1, h2⟩
      exact ⟨List.mem_cons_of_mem _ h1, h2⟩
    · rw [if_neg hc] at hx
      rcases List.mem_cons.mp hx with rfl | hx2
      · exact ⟨List.mem_cons_self _ _, fun hmem => hc (List.elem_eq_true_of_mem hmem)⟩
      · rcases ih _ x hx2 with ⟨h1, h2⟩
        refine ⟨List.mem_cons_of_mem _ h1, fun hmem => h2 (List.mem_cons_of_mem _ hmem)⟩

/-- The deduplication pass returns a list without duplicates. -/
theorem nodup_dedupFAux [DecidableEq α] :
    ∀ (l : List α) (seen : List α), (dedupFAux seen l).Nodup := by
  intro l
  induction l with
  | nil => intro seen; simp [dedupFAux]
  | cons a as ih =>
    intro seen
    rw [dedupFAux]
    by_cases hc : seen.contains a
    · rw [if_pos hc]; exact ih seen
    · rw [if_neg hc]
      refine List.nodup_cons.mpr ⟨fun hmem => ?_, ih _⟩
      exact (mem_dedupFAux as (a :: seen) a hmem).2 (List.mem_cons_self _ _)

/-- `dedupF` returns a list without duplicates. -/
theorem nodup_dedupF [DecidableEq α] (l : List α) : (dedupF l).Nodup :=
  nodup_dedupFAux l []

/-- The output ordering of the Normalizer: ascending by (date, description). -/
def recOutLE (a b : Rec) : Prop :=
  dateLT a.date b.date ∨ (a.date = b.date ∧ strLE a.description b.description)

/-- The grouped, sorted, fiscal-year-annotated output of `finalize` has
pairwise distinct `(date, description)` keys, is sorted ascending by
`(date, description)`, and carries as each value the sum of the retained
input values sharing its key. -/
theorem finalize_props (rows : List LRow) :
    List.Pairwise (fun a b : Rec => (a.date, a.description) ≠ (b.date, b.description))
      (finalize rows) ∧
    List.Sorted recOutLE (finalize rows) ∧
    ∀ r ∈ finalize rows,
      r.value = qsum ((rows.filter (fun x => rowKey x == (r.date, r.description))).map
        (fun x => x.value)) := by
  have hks : List.Pairwise (fun a b : LRow => (a.date, a.desc) ≠ (b.date, b.desc))
      (groupRows rows) := by
    rw [groupRows, List.pairwise_map]
    refine List.Pairwise.imp ?_ (nodup_dedupF (rows.map rowKey))
    intro a b hne
    rcases a with ⟨a1, a2⟩
    rcases b with ⟨b1, b2⟩
    exact fun h => hne (by simpa [Prod.ext_iff] using h)
  have hperm := List.perm_insertionSort recLE (groupRows rows)
  have hpair_s := (hperm.pairwise_iff (fun h heq => h heq.symm)).mpr hks
  refine ⟨?_, ?_, ?_⟩
  · rw [finalize, List.pairwise_map]
    exact hpair_s
  · rw [finalize]
    have hsorted := List.sorted_insertionSort recLE (groupRows rows)
    exact List.pairwise_map.mpr hsorted
  · intro r hrmem
    rw [finalize] at hrmem
    obtain ⟨gg, hgg, rfl⟩ := List.mem_map.mp hrmem
    have hgmem : gg ∈ groupRows rows := (List.mem_insertionSort recLE).mp hgg
    rw [groupRows] at hgmem
    obtain ⟨k, _, rfl⟩ := List.mem_map.mp hgmem
    rfl

/-- C8: every record stream the Normalizer accepts and emits has pairwise
distinct `(date, description)` pairs (duplicates having been resolved by
summing `value` over the retained rows of the key), and is sorted ascending
by `(date, description)`. -/
theorem cleanData_unique_sorted (df : DF) (out : List Rec) (h : cleanData df = .ok out) :
    List.Pairwise (fun a b : Rec => (a.date, a.description) ≠ (b.date, b.description)) out ∧
    List.Sorted recOutLE out ∧
    ∀ pre, retainedRows df = .ok pre → ∀ r ∈ out,
      r.value = qsum ((pre.filter (fun x => rowKey x == (r.date, r.description))).map
        (fun x => x.value)) := by
  rw [cleanData] at h
  cases hr : retainedRows df with
  | error e =>
    rw [hr] at h
    simp [Except.map] at h
  | ok pre =>
    rw [hr] at h
    have hout : finalize pre = out := by simpa [Except.map] using h
    subst hout
    refine ⟨(finalize_props pre).1, (finalize_props pre).2.1, ?_⟩
    intro pre2 hpre2 r hrmem
    have hpe : pre2 = pre := (Except.ok.inj hpre2).symm
    subst hpe
    exact (finalize_props pre2).2.2 r hrmem

/-- Witness for C8: the output of the wide example has distinct keys, is
sorted, and each value is the sum over its key group. -/
theorem cleanData_unique_sorted_witness :
    List.Pairwise (fun a b : Rec => (a.date, a.description) ≠ (b.date, b.description))
      wideRecs ∧
    List.Sorted recOutLE wideRecs ∧
    ∀ pre, retainedRows wideW = .ok pre → ∀ r ∈ wideRecs,
      r.value = qsum ((pre.filter (fun x => rowKey x == (r.date, r.description))).map
        (fun x => x.value)) :=
  cleanData_unique_sorted wideW wideRecs (by rfl)

/-! ## C4: error behaviour of the Normalizer -/

/-- Column lookup succeeds on present labels. -/
theorem getColumn_ok_of_mem {d : DF} {name : String} (h : name ∈ d.cols) :
    ∃ col, getColumn d name = .ok col := by
  cases hfi : d.cols.findIdx? (fun c => c == name) with
  | none =>
    rw [List.findIdx?_eq_none_iff] at hfi
    exact absurd (hfi name h) (by simp)
  | some i => exact ⟨_, by rw [getColumn, hfi]⟩

/-- Column lookup raises a `KeyError` on absent labels. -/
theorem getColumn_err_of_not_mem {d : DF} {name : String} (h : name ∉ d.cols) :
    getColumn d name = .error (.keyError name) := by
  cases hfi : d.cols.findIdx? (fun c => c == name) with
  | none => rw [getColumn, hfi]
  | some i =>
    obtain ⟨hlt, hp, _⟩ := List.findIdx?_eq_some_iff_getElem.mp hfi
    exact absurd (beq_iff_eq.mp hp ▸ List.getElem_mem hlt) h

/-- `renameFirst` keeps every member on which the predicate is false. -/
theorem mem_renameFirst_of_pred_false {cols : List String} {pred : String → Bool}
    {newName x : String} (hx : x ∈ cols) (hpx : pred x = false) :
    x ∈ renameFirst cols pred newName := by
  rw [renameFirst]
  cases hfi : cols.findIdx? pred with
  | none => exact hx
  | some i =>
    obtain ⟨hlt, hp, _⟩ := List.findIdx?_eq_some_iff_getElem.mp hfi
    obtain ⟨j, hj⟩ := List.mem_iff_getElem?.mp hx
    refine List.mem_iff_getElem?.mpr ⟨j, ?_⟩
    rcases eq_or_ne i j with rfl | hij
    · rw [List.getElem?_eq_getElem hlt] at hj
      rw [Option.some.inj hj] at hp
      rw [hp] at hpx
      exact absurd hpx (by simp)
    · rw [List.getElem?_set_ne hij]
      exact hj

/-- A member of `renameFirst` is an original member or the new name. -/
theorem mem_of_mem_renameFirst {cols : List String} {pred : String → Bool}
    {newName x : String} (h : x ∈ renameFirst cols pred newName) :
    x ∈ cols ∨ x = newName := by
  rw [renameFirst] at h
  cases hfi : cols.findIdx? pred with
  | none => rw [hfi] at h; exact Or.inl h
  | some i => rw [hfi] at h; exact List.mem_or_eq_of_mem_set h

/-- `renameFirst` preserves length. -/
theorem renameFirst_length (cols : List String) (pred : String → Bool) (newName : String) :
    (renameFirst cols pred newName).length = cols.length := by
  rw [renameFirst]
  cases hfi : cols.findIdx? pred with
  | none => rfl
  | some i => exact List.length_set cols i newName

/-- `renameDate` preserves length. -/
theorem renameDate_length (cols : List String) : (renameDate cols).length = cols.length := by
  rw [renameDate]
  split
  · rfl
  · exact renameFirst_length cols _ _

/-- `renameValue` preserves length. -/
theorem renameValue_length (cols : List String) : (renameValue cols).length = cols.length := by
  rw [renameValue]
  split
  · rfl
  · exact renameFirst_length cols _ _

/-- The description label survives the date-detection rename. -/
theorem description_mem_renameDate {cols : List String} (h : "description" ∈ cols) :
    "description" ∈ renameDate cols := by
  rw [renameDate]
  split
  · exact h
  · exact mem_renameFirst_of_pred_false h (by decide)

/-- The description label survives the value-detection rename. -/
theorem description_mem_renameValue {cols : List String} (h : "description" ∈ cols) :
    "description" ∈ renameValue cols := by
  rw [renameValue]
  split
  · exact h
  · exact mem_renameFirst_of_pred_false h (by decide)

/-- Three pairwise distinct members force a length of at least three. -/
theorem three_distinct_le_length {l : List String} {a b c : String}
    (ha : a ∈ l) (hb : b ∈ l) (hc : c ∈ l)
    (hab : a ≠ b) (hac : a ≠ c) (hbc : b ≠ c) : 3 ≤ l.length := by
  have hsub : ({a, b, c} : Finset String) ⊆ l.toFinset := by
    intro x hx
    rw [List.mem_toFinset]
    rcases Finset.mem_insert.mp hx with rfl | hx2
    · exact ha
    · rcases Finset.mem_insert.mp hx2 with rfl | hx3
      · exact hb
      · rw [Finset.mem_singleton] at hx3
        exact hx3 ▸ hc
  have hcard : ({a, b, c} : Finset String).card = 3 := by
    rw [Finset.card_insert_of_not_mem (by simp [hab, hac]),
      Finset.card_insert_of_not_mem (by simp [hbc]), Finset.card_singleton]
  calc 3 = ({a, b, c} : Finset String).card := hcard.symm
    _ ≤ l.toFinset.card := Finset.card_le_card hsub
    _ ≤ l.length := List.toFinset_card_le l

/-- On a long-shaped frame of at most two columns, the shared pipeline always
fails with a `KeyError` for the `date` or the `value` column: the three
required labels cannot fit. -/
theorem prepRows_longRename_err (rows : List (List Cell)) {cols' : List String} {dc : String}
    (hdc : dc ∈ cols') (hlen : cols'.length ≤ 2) :
    prepRows (longRename ⟨cols', rows⟩ dc) = .error (.keyError "date") ∨
    prepRows (longRename ⟨cols', rows⟩ dc) = .error (.keyError "value") := by
  have hdesc : "description" ∈ (longRename ⟨cols', rows⟩ dc).cols := by
    refine description_mem_renameValue (description_mem_renameDate ?_)
    exact List.mem_map.mpr ⟨dc, hdc, by simp⟩
  obtain ⟨colD, hcolD⟩ := getColumn_ok_of_mem hdesc
  by_cases hdate : "date" ∈ (longRename ⟨cols', rows⟩ dc).cols
  · by_cases hval : "value" ∈ (longRename ⟨cols', rows⟩ dc).cols
    · exfalso
      have h3 := three_distinct_le_length hdesc hdate hval
        (by decide) (by decide) (by decide)
      have hl : (longRename ⟨cols', rows⟩ dc).cols.length = cols'.length := by
        rw [longRename]
        rw [renameValue_length, renameDate_length]
        exact List.length_map _ _
      omega
    · right
      obtain ⟨colT, hcolT⟩ := getColumn_ok_of_mem hdate
      rw [prepRows, hcolD, hcolT, getColumn_err_of_not_mem hval]
  · left
    rw [prepRows, hcolD, getColumn_err_of_not_mem hdate]

/-- C4 (amended): `clean_data` raises its `ValueError` (the
`MissingColumnError`) exactly when no column label, case-insensitively
trimmed, equals "description". When such a column exists the behaviour splits
on the shape heuristic. With more than one other column (the wide path):
if some trimmed column is literally named "value", `melt` raises the pandas
`ValueError` for the value_name collision (pandas 1.1+); otherwise no
exception is raised — unparsable dates and non-numeric values are only
dropped. With at most one other column (the long path), a `KeyError` for the
`date` or `value` column is raised. (The original claim's "no exception at
all" fails, see `cleanData_keyError_on_long_table`.) Stated for frames with
distinct trimmed column labels. -/
theorem cleanData_error_characterization (df : DF)
    (hnd : (df.cols.map trimStr).Nodup) :
    (cleanData df = .error .missingColumn ↔
      (df.cols.map trimStr).find? (fun c => lowerStr (trimStr c) == "description") = none) ∧
    ∀ dc, (df.cols.map trimStr).find? (fun c => lowerStr (trimStr c) == "description") =
        some dc →
      ((((df.cols.map trimStr).filter (fun c => c != dc)).length > 1 →
        ("value" ∈ df.cols.map trimStr → cleanData df = .error .valueNameClash) ∧
        ("value" ∉ df.cols.map trimStr → ∃ out, cleanData df = .ok out)) ∧
       (((df.cols.map trimStr).filter (fun c => c != dc)).length ≤ 1 →
        cleanData df = .error (.keyError "date") ∨
        cleanData df = .error (.keyError "value"))) := by
  have hmain : ∀ dc,
      (df.cols.map trimStr).find? (fun c => lowerStr (trimStr c) == "description") =
        some dc →
      ((((df.cols.map trimStr).filter (fun c => c != dc)).length > 1 →
        ("value" ∈ df.cols.map trimStr → cleanData df = .error .valueNameClash) ∧
        ("value" ∉ df.cols.map trimStr → ∃ out, cleanData df = .ok out)) ∧
       (((df.cols.map trimStr).filter (fun c => c != dc)).length ≤ 1 →
        cleanData df = .error (.keyError "date") ∨
        cleanData df = .error (.keyError "value"))) := by
    intro dc hfind
    constructor
    · intro hgt
      constructor
      · intro hv
        have hcont : (df.cols.map trimStr).contains "value" = true :=
          List.elem_eq_true_of_mem hv
        have hret : retainedRows df = .error .valueNameClash := by
          simp only [retainedRows, hfind]
          rw [if_pos hgt, meltDF, if_pos hcont]
        rw [cleanData, hret]
        rfl
      · intro hv
        have hcont : (df.cols.map trimStr).contains "value" = false := by
          rw [Bool.eq_false_iff]
          intro hc
          exact hv (List.mem_of_elem_eq_true hc)
        have hmelt : meltDF ⟨df.cols.map trimStr, df.rows⟩ dc =
            .ok (meltBody ⟨df.cols.map trimStr, df.rows⟩ dc) := by
          rw [meltDF, if_neg (by rw [hcont]; simp)]
        have hret : retainedRows df =
            prepRows (meltBody ⟨df.cols.map trimStr, df.rows⟩ dc) := by
          simp only [retainedRows, hfind]
          rw [if_pos hgt, hmelt]
        obtain ⟨pre, hpre⟩ :
            ∃ pre, prepRows (meltBody ⟨df.cols.map trimStr, df.rows⟩ dc) = .ok pre := ⟨_, rfl⟩
        refine ⟨finalize pre, ?_⟩
        rw [cleanData, hret, hpre]
        rfl
    · intro hle
      have hret : retainedRows df = prepRows (longRename ⟨df.cols.map trimStr, df.rows⟩ dc) := by
        simp only [retainedRows, hfind]
        rw [if_neg (by omega)]
      have hdc : dc ∈ df.cols.map trimStr := List.mem_of_find?_eq_some hfind
      have hlen2 : (df.cols.map trimStr).length ≤ 2 := by
        have h1 := List.length_eq_countP_add_countP (fun c => c == dc)
          (df.cols.map trimStr)
        have h2 : List.countP (fun c => c == dc) (df.cols.map trimStr) = 1 := by
          have hcnt := List.count_eq_one_of_mem hnd hdc
          simpa [List.count] using hcnt
        have h3 : List.countP (fun a => !(a == dc)) (df.cols.map trimStr) ≤ 1 := by
          rw [List.countP_eq_length_filter]
          exact hle
        have h4 : List.countP (fun a => decide ¬(a == dc) = true) (df.cols.map trimStr) =
            List.countP (fun a => !(a == dc)) (df.cols.map trimStr) := by
          refine List.countP_congr ?_
          intro x _
          cases h : x == dc <;> simp [h]
        omega
      rcases prepRows_longRename_err df.rows hdc hlen2 with h | h
      · left
        rw [cleanData, hret, h]
        rfl
      · right
        rw [cleanData, hret, h]
        rfl
  refine ⟨⟨fun herr => ?_, fun hnone => ?_⟩, hmain⟩
  · cases hfind : (df.cols.map trimStr).find?
        (fun c => lowerStr (trimStr c) == "description") with
    | none => rfl
    | some dc =>
      exfalso
      rcases Nat.lt_or_ge 1 ((df.cols.map trimStr).filter (fun c => c != dc)).length with
        hgt | hge
      · by_cases hv : "value" ∈ df.cols.map trimStr
        · have hclash := ((hmain dc hfind).1 hgt).1 hv
          rw [hclash] at herr
          exact CleanErr.noConfusion (Except.error.inj herr)
        · obtain ⟨out, hout⟩ := ((hmain dc hfind).1 hgt).2 hv
          rw [hout] at herr
          exact Except.noConfusion herr
      · rcases (hmain dc hfind).2 (by omega) with h | h
        · rw [h] at herr
          exact CleanErr.noConfusion (Except.error.inj herr)
        · rw [h] at herr
          exact CleanErr.noConfusion (Except.error.inj herr)
  · rw [cleanData]
    simp only [retainedRows]
    rw [hnone]
    rfl

/-- Witness for C4: the wide example has a description column; it does not
raise the missing-column error and produces an output stream. -/
theorem cleanData_error_characterization_witness :
    ¬ (cleanData wideW = .error .missingColumn) ∧ ∃ out, cleanData wideW = .ok out := by
  have h := cleanData_error_characterization wideW (by decide)
  have hfind : (wideW.cols.map trimStr).find?
      (fun c => lowerStr (trimStr c) == "description") = some "Description" := by rfl
  refine ⟨fun herr => ?_, ((h.2 "Description" hfind).1 (by decide)).2 (by decide)⟩
  have hn := h.1.mp herr
  rw [hn] at hfind
  exact Option.noConfusion hfind
